import Mathlib

/-!
Verification of the parameter-classification and command-write core of the
`ha-bragerone` integration (`custom_components/habragerone`), embedded
shallowly: `command_write.py`, the pure classification helpers of
`bootstrap.py`, and `_select_command_rule` of `runtime.py`.

Python values flowing through these functions are modelled by `Prim`
(`None`, `bool`, `int`, `float`, `str`).  Python floats are modelled as
rationals: every numeric computation the verified claims depend on is exact
in IEEE double precision as well (integral values, scale 1/10 on small
integers), and no claim depends on the printed form of a non-integral float.
Python dicts are modelled as ordered association lists with
update-in-place/append-at-end assignment (`dictInsert`), which reproduces
dict insertion-order semantics for the operations the code uses.
-/

namespace HaBragerone

/-- Model of the Python values reaching this core: None, bool, int, float
(as an exact rational), str. -/
inductive Prim where
  | none
  | pb (b : Bool)
  | pi (n : Int)
  | pf (q : ℚ)
  | ps (s : String)
deriving DecidableEq, Repr, Inhabited

/-- Numeric view used by Python `==`: `bool` counts as 0/1, `int` and
`float` compare by value. -/
def Prim.toNumQ : Prim → Option ℚ
  | .pb b => some (if b then 1 else 0)
  | .pi n => some (n : ℚ)
  | .pf q => some q
  | _ => Option.none

/-- Python `==` on the modelled values: numbers compare numerically across
bool/int/float; strings compare as strings; `None` equals only `None`. -/
def pyEq (a b : Prim) : Bool :=
  match a.toNumQ, b.toNumQ with
  | some x, some y => x == y
  | _, _ =>
    match a, b with
    | .ps s, .ps t => s == t
    | .none, .none => true
    | _, _ => false

/-- Python truthiness of a value (`bool(v)`). -/
def pyTruthy : Prim → Bool
  | .none => false
  | .pb b => b
  | .pi n => n != 0
  | .pf q => q != 0
  | .ps s => s != ""

/-- `str()` of a float.  Integral floats print as Python does (`"200.0"`);
for non-integral floats the model prints the reduced fraction, an
approximation of Python `repr` that no settled claim depends on. -/
def ratStr (q : ℚ) : String :=
  if q.den == 1 then toString q.num ++ ".0"
  else toString q.num ++ "/" ++ toString q.den

/-- Python `str()` on the modelled values. -/
def pyStr : Prim → String
  | .none => "None"
  | .pb b => if b then "True" else "False"
  | .pi n => toString n
  | .pf q => ratStr q
  | .ps s => s

/-- Lower-case one ASCII letter (the repository's labels, tokens and
component types are ASCII; modelled after Python `str.lower`). -/
def asciiLower (c : Char) : Char :=
  if 'A' ≤ c && c ≤ 'Z' then Char.ofNat (c.toNat + 32) else c

/-- Upper-case one ASCII letter (modelled after Python `str.upper`). -/
def asciiUpper (c : Char) : Char :=
  if 'a' ≤ c && c ≤ 'z' then Char.ofNat (c.toNat - 32) else c

/-- Python `str.lower()` / `str.casefold()` on the modelled (ASCII)
strings. -/
def pyLower (s : String) : String := String.mk (s.toList.map asciiLower)

/-- Python `str.upper()` on the modelled (ASCII) strings. -/
def pyUpper (s : String) : String := String.mk (s.toList.map asciiUpper)

/-- Python `str.strip()`: drop whitespace from both ends. -/
def pyTrim (s : String) : String :=
  String.mk (((s.toList.dropWhile Char.isWhitespace).reverse.dropWhile
    Char.isWhitespace).reverse)

/-- Python `str.startswith(pre)`. -/
def pyStartsWith (s pre : String) : Bool := pre.toList.isPrefixOf s.toList

/-- Digits to the natural number they denote. -/
def digitsToNat (l : List Char) : Nat :=
  l.foldl (fun acc c => acc * 10 + (c.toNat - 48)) 0

/-- A non-empty all-digit character run, as a number. -/
def digitsVal (l : List Char) : Option Nat :=
  if l.length > 0 && l.all Char.isDigit then some (digitsToNat l) else Option.none

/-- Python `int(text)` on an already-stripped string: optional sign then
digits (the model omits underscores and non-decimal bases, which the
repository's data never uses). -/
def pyIntParse (s : String) : Option Int :=
  match s.toList with
  | '+' :: rest => (digitsVal rest).map (fun n => (n : Int))
  | '-' :: rest => (digitsVal rest).map (fun n => -(n : Int))
  | l => (digitsVal l).map (fun n => (n : Int))

/-- Python `float(text)` on an already-stripped string, modelled for plain
decimal literals `[sign] digits [. digits]` (exponents/inf/nan omitted; no
settled claim depends on them). -/
def pyFloatParse (s : String) : Option ℚ :=
  let signed : ℚ × List Char :=
    match s.toList with
    | '-' :: rest => (-1, rest)
    | '+' :: rest => (1, rest)
    | l => (1, l)
  let sign := signed.1
  let l := signed.2
  if l.contains '.' then
    let a := l.takeWhile (fun c => c != '.')
    let b := (l.dropWhile (fun c => c != '.')).drop 1
    if b.contains '.' then Option.none
    else if a.all Char.isDigit && b.all Char.isDigit && a.length + b.length > 0 then
      some (sign * ((digitsToNat a : ℚ) + (digitsToNat b : ℚ) / ((10 : ℚ) ^ b.length)))
    else Option.none
  else
    match digitsVal l with
    | some n => some (sign * (n : ℚ))
    | Option.none => Option.none

/-- Python dict assignment `d[k] = v` on an ordered association list:
an existing key keeps its position and gets the new value, a new key is
appended at the end. -/
def dictInsert {α β : Type} [BEq α] (d : List (α × β)) (k : α) (v : β) : List (α × β) :=
  if d.any (fun p => p.1 == k) then
    d.map (fun p => if p.1 == k then (k, v) else p)
  else d ++ [(k, v)]

/-- Python `dict.get(k)` on a dict whose keys are arbitrary values,
using Python equality. -/
def pyDictGet (d : List (Prim × Prim)) (k : Prim) : Option Prim :=
  (d.find? (fun p => pyEq p.1 k)).map (fun p => p.2)

/-- Boolean list-infix test (substring on the character level). -/
def listIsInfixOf {α : Type} [BEq α] : List α → List α → Bool
  | needle, [] => needle.isEmpty
  | needle, a :: rest' =>
    needle.isPrefixOf (a :: rest') || listIsInfixOf needle rest'

/-- Python `needle in hay` on strings. -/
def strContains (hay needle : String) : Bool :=
  listIsInfixOf needle.toList hay.toList

/-! ## command_write.py -/

/-- The distinct `WriteValidationError` cases raised by `command_write.py`
(`enum_display_to_raw`, `_inverse_transform`, `_validate_raw_bounds`,
`select_command_route`), carrying the data the message names. -/
inductive WriteError where
  | enumInvalid
  | scaleZero
  | belowMin (bound : ℚ)
  | aboveMax (bound : ℚ)
  | noRoute
deriving DecidableEq, Repr

/-- The `CommandRoute` literal type. -/
inductive CommandRoute where
  | parameter_write
  | raw_command
deriving DecidableEq, Repr

/-- `NumericTransform`: display = raw * scale + offset (floats as ℚ). -/
structure NumericTransform where
  scale : ℚ := 1
  offset : ℚ := 0
deriving DecidableEq, Repr

/-- `WriteContext`: metadata for one command write.  The enum mapping is an
ordered label-to-raw dict. -/
structure WriteContext where
  symbol : String
  has_parameter_address : Bool
  has_command_rule : Bool
  enum_mapping : Option (List (String × Prim)) := Option.none
  transform : Option NumericTransform := Option.none
  raw_min : Option ℚ := Option.none
  raw_max : Option ℚ := Option.none
deriving DecidableEq, Repr

/-- `PreparedWrite`: a validated command write payload. -/
structure PreparedWrite where
  symbol : String
  input_display_value : Prim
  raw_value : Prim
  route : CommandRoute
deriving DecidableEq, Repr

/-- `enum_display_to_raw`: a display label is looked up as a dict key
(keys are strings, so only a string input can match); otherwise an input
already equal (Python `==`) to some mapped raw value passes through
unchanged; otherwise the write fails. -/
def enum_display_to_raw (display_value : Prim) (enum_mapping : List (String × Prim)) :
    Except WriteError Prim :=
  match display_value with
  | .ps s =>
    match List.lookup s enum_mapping with
    | some raw => .ok raw
    | Option.none =>
      if enum_mapping.any (fun p => pyEq p.2 display_value) then .ok display_value
      else .error .enumInvalid
  | v =>
    if enum_mapping.any (fun p => pyEq p.2 v) then .ok v
    else .error .enumInvalid

/-- `enum_raw_to_display`: first label whose mapped raw value equals
(Python `==`) the given raw value; the raw value itself when none does. -/
def enum_raw_to_display (raw_value : Prim) (enum_mapping : List (String × Prim)) : Prim :=
  match enum_mapping.find? (fun p => pyEq p.2 raw_value) with
  | some p => .ps p.1
  | Option.none => raw_value

/-- `select_command_route`. -/
def select_command_route (has_parameter_address has_command_rule : Bool) :
    Except WriteError CommandRoute :=
  if has_parameter_address then .ok .parameter_write
  else if has_command_rule then .ok .raw_command
  else .error .noRoute

/-- `_coerce_number`: collapse a mathematically integral result to int. -/
def coerce_number (raw_value : ℚ) : Prim :=
  if raw_value.den == 1 then .pi raw_value.num else .pf raw_value

/-- `_inverse_transform`: raw = (display - offset) / scale, failing on
scale 0. -/
def inverse_transform (value : ℚ) (transform : NumericTransform) : Except WriteError Prim :=
  if transform.scale == 0 then .error .scaleZero
  else .ok (coerce_number ((value - transform.offset) / transform.scale))

/-- `_validate_raw_bounds`: minimum checked first, then maximum. -/
def validate_raw_bounds (raw_value : ℚ) (raw_min raw_max : Option ℚ) :
    Except WriteError Unit :=
  match raw_min with
  | some mn =>
    if raw_value < mn then .error (.belowMin mn)
    else
      match raw_max with
      | some mx => if raw_value > mx then .error (.aboveMax mx) else .ok ()
      | Option.none => .ok ()
  | Option.none =>
    match raw_max with
    | some mx => if raw_value > mx then .error (.aboveMax mx) else .ok ()
    | Option.none => .ok ()

/-- `isinstance(v, int | float) and not isinstance(v, bool)`: the numeric
value when the test passes. -/
def primNumNotBool : Prim → Option ℚ
  | .pi n => some (n : ℚ)
  | .pf q => some q
  | _ => Option.none

/-- `float(v)` of a value already known to be int or float (total on `Prim`
for convenience; the extra cases are never reached by `prepare_write`). -/
def primNumVal : Prim → ℚ
  | .pi n => (n : ℚ)
  | .pf q => q
  | .pb b => if b then 1 else 0
  | _ => 0

/-- The enum-resolution step of `prepare_write`. -/
def enum_resolve (input_display_value : Prim) (context : WriteContext) :
    Except WriteError Prim :=
  match context.enum_mapping with
  | some m => enum_display_to_raw input_display_value m
  | Option.none => .ok input_display_value

/-- `prepare_write`: enum resolution, then (for a non-bool numeric value)
inverse transform and bounds validation, then route selection. -/
def prepare_write (input_display_value : Prim) (context : WriteContext) :
    Except WriteError PreparedWrite :=
  match enum_resolve input_display_value context with
  | .error e => .error e
  | .ok converted_value =>
    let numericStep : Except WriteError Prim :=
      match primNumNotBool converted_value with
      | Option.none => .ok converted_value
      | some q =>
        let transformed : Except WriteError Prim :=
          match context.transform with
          | some t => inverse_transform q t
          | Option.none => .ok converted_value
        match transformed with
        | .error e => .error e
        | .ok numeric_raw_value =>
          match validate_raw_bounds (primNumVal numeric_raw_value) context.raw_min
              context.raw_max with
          | .error e => .error e
          | .ok _ => .ok numeric_raw_value
    match numericStep with
    | .error e => .error e
    | .ok final_value =>
      match select_command_route context.has_parameter_address context.has_command_rule with
      | .error e => .error e
      | .ok route => .ok ⟨context.symbol, input_display_value, final_value, route⟩

/-! ## bootstrap.py -/

/-- One entry of `mapping["command_rules"]`: a dict with optional
`command`, `logic` and `value` keys (`Option.none` = key absent; a present
Python `None` is `some Prim.none`). -/
structure CommandRule where
  command : Option Prim := Option.none
  logic : Option Prim := Option.none
  value : Option Prim := Option.none
deriving DecidableEq, Repr

/-- The `mapping` dict of a descriptor.  Each field is `Option.none` when
the key is absent; a key present with a value of the wrong Python type is
modelled as absent, which the code treats identically at every use site
(every access is guarded by an `isinstance` check or by truthiness that the
claims do not distinguish). -/
structure PyMapping where
  component_type : Option Prim := Option.none
  command_rules : Option (List CommandRule) := Option.none
  values : Option (List Prim) := Option.none
  units_source : Option (List (Prim × Prim)) := Option.none
deriving DecidableEq, Repr

/-- `_coerce_raw`: bool/int/float pass through; strings are tried as
"true"/"false" (case-insensitively), then int, then float, else kept as
the trimmed string. -/
def coerce_raw (value : Prim) : Prim :=
  match value with
  | .pb b => .pb b
  | .pi n => .pi n
  | .pf q => .pf q
  | v =>
    let text := pyTrim (pyStr v)
    if pyLower text == "true" || pyLower text == "false" then .pb (pyLower text == "true")
    else
      match pyIntParse text with
      | some n => .pi n
      | Option.none =>
        match pyFloatParse text with
        | some q => .pf q
        | Option.none => .ps text

/-- `str(mapping.get("component_type") if isinstance(mapping, dict) else "")`:
missing mapping gives `""`, a mapping without the key gives `str(None)`. -/
def component_type_str (mapping : Option PyMapping) : String :=
  match mapping with
  | Option.none => ""
  | some m =>
    match m.component_type with
    | Option.none => "None"
    | some v => pyStr v

/-- `isinstance(v, str)`. -/
def isStrPrim : Prim → Bool
  | .ps _ => true
  | _ => false

/-- `isinstance(v, int)` (Python bools are ints). -/
def isIntPrim : Prim → Bool
  | .pi _ => true
  | .pb _ => true
  | _ => false

/-- `isinstance(v, int | float)` (Python bools are ints). -/
def isNumericPrim : Prim → Bool
  | .pi _ => true
  | .pf _ => true
  | .pb _ => true
  | _ => false

/-- `_has_direct_address`. -/
def has_direct_address (pool chan idx : Prim) : Bool :=
  isStrPrim pool && isStrPrim chan && isIntPrim idx

/-- `_SWITCHISH_RULE_VALUES`. -/
def SWITCHISH_RULE_VALUES : List String :=
  ["0", "1", "true", "false", "on", "off", "enabled", "disabled", "yes", "no"]

/-- `_NON_ENTITY_COMPONENT_MARKERS`. -/
def NON_ENTITY_COMPONENT_MARKERS : List String :=
  ["password", "menu", "view", "separator", "title"]

/-- The normalized value token one command rule contributes to
`_is_switch_like_command`'s `raw_values` set. -/
def switchRuleValueToken (rule : CommandRule) : Option String :=
  match rule.value with
  | some (.pb b) => some (if b then "true" else "false")
  | some (.pi n) => some (toString n)
  | some (.pf q) => some (if q.den == 1 then toString q.num else pyLower (ratStr q))
  | some (.ps s) => some (pyLower (pyTrim s))
  | _ => Option.none

/-- `_is_switch_like_command`. -/
def is_switch_like_command (mapping : Option PyMapping) : Bool :=
  match mapping with
  | Option.none => false
  | some m =>
    match m.command_rules with
    | some (r :: rs) =>
      let command_rules := r :: rs
      let logic_tags := command_rules.filterMap (fun rule =>
        match rule.logic with
        | some (.ps s) => if pyTrim s != "" then some (pyLower (pyTrim s)) else Option.none
        | _ => Option.none)
      let raw_values := command_rules.filterMap switchRuleValueToken
      if logic_tags.contains "on" && logic_tags.contains "off" then true
      else !raw_values.isEmpty && raw_values.all (fun v => SWITCHISH_RULE_VALUES.contains v)
    | _ => false

/-- `_is_exposable_descriptor`. -/
def is_exposable_descriptor (writable : Bool) (pool chan idx : Prim)
    (mapping : Option PyMapping) : Bool :=
  let component_type := pyLower (pyTrim (component_type_str mapping))
  if component_type != "" &&
      NON_ENTITY_COMPONENT_MARKERS.any (fun marker => strContains component_type marker) then
    false
  else writable || has_direct_address pool chan idx

/-- `_infer_platform`: the ordered decision list. -/
def infer_platform (writable : Bool) (mapping : Option PyMapping)
    (minimum maximum : Prim) (symbol : String) (chan : Prim)
    (has_direct_address : Bool) : String :=
  let symbol_norm := pyUpper symbol
  let component_type := pyLower (component_type_str mapping)
  if pyEq chan (.ps "s") || pyStartsWith symbol_norm "STATUS_" ||
      strContains component_type "status" then "binary_sensor"
  else if !writable then "sensor"
  else
    match mapping.bind (fun m => m.values) with
    | some (_ :: _) => "select"
    | _ =>
      if strContains component_type "button" || strContains component_type "action" then
        "button"
      else if !has_direct_address then "button"
      else if isNumericPrim minimum && isNumericPrim maximum then "number"
      else if strContains component_type "switch" || strContains component_type "toggle" ||
          is_switch_like_command mapping then "switch"
      else "switch"

/-- `units_source.get(k)` as used by `_enum_maps`: a key present with value
`None` behaves like an absent key (the code retests `label_raw is None`). -/
def usGet (units_source : List (Prim × Prim)) (k : Prim) : Option Prim :=
  match pyDictGet units_source k with
  | some Prim.none => Option.none
  | some v => some v
  | Option.none => Option.none

/-- The label `_enum_maps` resolves for one raw enum value when
`units_source` is a mapping and `values` is a non-empty list: lookup by the
raw value, then by its string form, defaulting to the raw value's own
string form; always trimmed. -/
def enumLabelFor (units_source : List (Prim × Prim)) (raw : Prim) : String :=
  match usGet units_source raw with
  | some v => pyTrim (pyStr v)
  | Option.none =>
    match usGet units_source (.ps (pyStr raw)) with
    | some v => pyTrim (pyStr v)
    | Option.none => pyTrim (pyStr raw)

/-- One step of `_enum_maps`' dict building: skip an empty label, else
assign into both dicts. -/
def enumMapsStep (acc : List (String × Prim) × List (String × String))
    (entry : String × Prim) : List (String × Prim) × List (String × String) :=
  if entry.1 == "" then acc
  else (dictInsert acc.1 entry.1 entry.2, dictInsert acc.2 (pyStr entry.2) entry.1)

/-- The ordered (trimmed label, coerced raw) entry sequence `_enum_maps`
iterates over, one list per branch: `units_source` with a non-empty
`values` list; `units_source` alone; `values` alone. -/
def enum_entries (mapping : Option PyMapping) : List (String × Prim) :=
  match mapping with
  | Option.none => []
  | some m =>
    match m.units_source with
    | some us =>
      match m.values with
      | some (v :: vs) =>
        (v :: vs).map (fun raw => (enumLabelFor us raw, coerce_raw raw))
      | _ =>
        us.map (fun rkl => (pyTrim (pyStr rkl.2), coerce_raw rkl.1))
    | Option.none =>
      match m.values with
      | some values => values.map (fun raw => (pyTrim (pyStr raw), coerce_raw raw))
      | Option.none => []

/-- `_enum_maps`: builds `enum_map` (label → coerced raw) and
`raw_to_label` (str(coerced raw) → label) by dict assignment over the
entry sequence. -/
def enum_maps (mapping : Option PyMapping) :
    List (String × Prim) × List (String × String) :=
  (enum_entries mapping).foldl enumMapsStep ([], [])

/-- `_extract_options`: the key list of `enum_map`. -/
def extract_options (mapping : Option PyMapping) : List String :=
  (enum_maps mapping).1.map (fun p => p.1)

/-- A cached descriptor record (`dict`), with the keys the classification
code reads or writes.  `Prim.none` models both an absent key and a present
`None` (the code only reads these keys through `.get`, which conflates the
two); derived keys distinguish absence so normalization output is exact. -/
structure RawDescriptor where
  symbol : Prim := Prim.none
  devid : Prim := Prim.none
  pool : Prim := Prim.none
  chan : Prim := Prim.none
  idx : Prim := Prim.none
  min : Prim := Prim.none
  max : Prim := Prim.none
  mapping : Option PyMapping := Option.none
  writable : Prim := Prim.none
  options : Option (List String) := Option.none
  enum_map : Option (List (String × Prim)) := Option.none
  raw_to_label : Option (List (String × String)) := Option.none
  platform : Option String := Option.none
deriving DecidableEq, Repr

/-- `bool(mapping and mapping.get("command_rules"))`. -/
def mapping_command_rules_truthy : Option PyMapping → Bool
  | Option.none => false
  | some m =>
    match m.command_rules with
    | some (_ :: _) => true
    | _ => false

/-- The `writable` flag `async_build_bootstrap_payload` stores in every
descriptor it builds (bootstrap.py line 446):
`bool(mapping and mapping.get("command_rules"))`. -/
def bootstrap_writable (mapping : Option PyMapping) : Bool :=
  mapping_command_rules_truthy mapping

/-- The body of `normalize_cached_descriptors`' loop for one record:
`Option.none` when the record is filtered out. -/
def normalize_one (d : RawDescriptor) : Option RawDescriptor :=
  let symbol := if pyTruthy d.symbol then pyStr d.symbol else ""
  let mapping := d.mapping
  let writable := pyTruthy d.writable || mapping_command_rules_truthy mapping
  if !is_exposable_descriptor writable d.pool d.chan d.idx mapping then Option.none
  else
    let em := enum_maps mapping
    some { d with
      writable := .pb writable
      options := some (em.1.map (fun p => p.1))
      enum_map := some em.1
      raw_to_label := some em.2
      platform := some (infer_platform writable mapping d.min d.max symbol d.chan
        (has_direct_address d.pool d.chan d.idx)) }

/-- `normalize_cached_descriptors` (non-dict records, which the loop skips,
are outside the model). -/
def normalize_cached_descriptors (descriptors_raw : List RawDescriptor) :
    List RawDescriptor :=
  descriptors_raw.filterMap normalize_one

/-! ## runtime.py -/

/-- `str(rule.get("logic", "")).strip().lower()` (runtime.py line 156). -/
def rule_logic_token (rule : CommandRule) : String :=
  pyLower (pyTrim (pyStr (match rule.logic with | some v => v | Option.none => .ps "")))

/-- `str(rule.get("value")).strip().lower()` (runtime.py line 161). -/
def rule_value_token (rule : CommandRule) : String :=
  pyLower (pyTrim (pyStr (match rule.value with | some v => v | Option.none => Prim.none)))

/-- runtime.py line 157: `isinstance(desired_value, bool) and
((desired_value and logic == "on") or (not desired_value and logic == "off"))`. -/
def boolLogicMatch (desired_value : Prim) (logic : String) : Bool :=
  match desired_value with
  | .pb b => (b && logic == "on") || (!b && logic == "off")
  | _ => false

/-- The `for` loop of `_select_command_rule`: first rule matched by the
boolean-logic test or the stringified-value test. -/
def select_command_rule_loop (desired_value : Prim) : List CommandRule → Option CommandRule
  | [] => Option.none
  | rule :: rest =>
    if boolLogicMatch desired_value (rule_logic_token rule) then some rule
    else if rule_value_token rule == pyLower (pyTrim (pyStr desired_value)) then some rule
    else select_command_rule_loop desired_value rest

/-- `_select_command_rule`: loop, then fall back to the first rule, then to
an empty rule. -/
def select_command_rule (command_rules : List CommandRule) (desired_value : Prim) :
    CommandRule :=
  match select_command_rule_loop desired_value command_rules with
  | some rule => rule
  | Option.none =>
    match command_rules with
    | rule :: _ => rule
    | [] => ⟨Option.none, Option.none, Option.none⟩

/-! ## Spec-side definitions and concrete inputs used by the claims -/

/-- First-defined option: `some` on the left shadows the right. -/
def ofirst {α : Type} : Option α → Option α → Option α
  | some a, _ => some a
  | Option.none, b => b

/-- Ordered de-duplication keeping the first occurrence of each element. -/
def dedupFirst (l : List String) : List String :=
  l.foldl (fun acc x => if acc.contains x then acc else acc ++ [x]) []

/-- Modelled from the spec: a rule matches the desired value when its
`logic` matches the boolean intent of the desired value ("on" for a truthy
boolean, "off" for a falsy boolean) or its own `value` stringifies
(case-folded, trimmed) to the same token as the desired value. -/
def matches_desired (desired_value : Prim) (rule : CommandRule) : Bool :=
  boolLogicMatch desired_value (rule_logic_token rule) ||
  rule_value_token rule == pyLower (pyTrim (pyStr desired_value))

/-- The enum-resolved values `prepare_write` leaves untouched that claim
C10 speaks about: booleans and strings. -/
def isBoolOrStr : Prim → Bool
  | .pb _ => true
  | .ps _ => true
  | _ => false

/-- C8's context: parameter address present, transform scale 0.1 offset 0,
raw bounds [0, 400]. -/
def ctxC8 : WriteContext :=
  ⟨"sym", true, false, Option.none, some ⟨(1 : ℚ) / 10, 0⟩, some 0, some 400⟩

/-- C5's context: parameter address present and a transform with scale 0. -/
def ctxC5 : WriteContext :=
  ⟨"sym", true, false, Option.none, some ⟨0, 0⟩, Option.none, Option.none⟩

/-- C10's witness context: parameter address present, a scale-0 transform
and raw bounds that would reject any numeric value. -/
def ctxC10 : WriteContext :=
  ⟨"sym", true, false, Option.none, some ⟨0, 0⟩, some 5, some 4⟩

/-- C1's counterexample mapping: two raw values "1" and "2" that both
carry the trimmed label "A". -/
def c1_mapping : PyMapping :=
  { units_source := some [(.ps "1", .ps "A"), (.ps "2", .ps "A")],
    values := some [.ps "1", .ps "2"] }

/-- C2's counterexample mapping: two labels sharing the raw value 1. -/
def c2_map : List (String × Prim) := [("A", .pi 1), ("B", .pi 1)]

/-- C2's witness mapping: distinct raw values. -/
def c2w_map : List (String × Prim) := [("A", .pi 1), ("B", .pi 2)]

/-- C3's counterexample mapping: a non-empty `values` list on a descriptor
whose channel is the status channel "s". -/
def c3_mapping : PyMapping := { values := some [.pi 1] }

/-- C3's witness mapping: a non-empty `values` list with a duplicated raw
value. -/
def c3w_mapping : PyMapping := { values := some [.pi 1, .pi 1, .pi 2] }

/-- C4's counterexample record: a cached descriptor with a stale
`writable: true` flag, a direct address and no mapping at all. -/
def c4_dW : RawDescriptor :=
  { pool := .ps "P4", chan := .ps "v", idx := .pi 0, writable := .pb true }

/-- What `normalize_cached_descriptors` produces from `c4_dW`. -/
def c4_dW' : RawDescriptor :=
  { c4_dW with
    writable := .pb true
    options := some []
    enum_map := some []
    raw_to_label := some []
    platform := some "switch" }

/-! ## Helper lemmas -/

theorem pyEq_refl (v : Prim) : pyEq v v = true := by
  cases v <;> simp [pyEq, Prim.toNumQ]

theorem ofirst_none_left {α : Type} (x : Option α) : ofirst Option.none x = x := rfl

theorem ofirst_none_right {α : Type} (x : Option α) : ofirst x Option.none = x := by
  cases x <;> rfl

theorem lookup_append {α β : Type} [BEq α] (l₁ l₂ : List (α × β)) (a : α) :
    List.lookup a (l₁ ++ l₂) = ofirst (List.lookup a l₁) (List.lookup a l₂) := by
  induction l₁ with
  | nil => simp [ofirst]
  | cons p rest ih =>
    obtain ⟨k, v⟩ := p
    cases h : a == k with
    | true => simp [List.lookup, h, ofirst]
    | false => simp [List.lookup, h, ih]

theorem mem_of_lookup_eq_some {α β : Type} [BEq α] [LawfulBEq α] {l : List (α × β)}
    {a : α} {b : β} (h : List.lookup a l = some b) : (a, b) ∈ l := by
  induction l with
  | nil => simp [List.lookup] at h
  | cons p rest ih =>
    obtain ⟨k, v⟩ := p
    cases hak : a == k with
    | true =>
      simp [List.lookup, hak] at h
      subst h
      have : a = k := eq_of_beq hak
      subst this
      exact List.mem_cons_self _ _
    | false =>
      simp [List.lookup, hak] at h
      exact List.mem_cons_of_mem _ (ih h)

theorem beq_symm {α : Type} [BEq α] [LawfulBEq α] (a b : α) : (a == b) = (b == a) := by
  cases hab : (a == b) with
  | true =>
    have : a = b := eq_of_beq hab
    subst this
    simp
  | false =>
    cases hba : (b == a) with
    | true =>
      have : b = a := eq_of_beq hba
      subst this
      simp at hab
    | false => rfl

theorem lookup_eq_none_of_no_key {α β : Type} [BEq α] [LawfulBEq α] (l : List (α × β))
    (k : α) (h : l.any (fun p => p.1 == k) = false) : List.lookup k l = Option.none := by
  induction l with
  | nil => rfl
  | cons p rest ih =>
    simp only [List.any_cons, Bool.or_eq_false_iff] at h
    have hk : (k == p.1) = false := by
      rw [beq_symm]
      exact h.1
    simp [List.lookup, hk, ih h.2]

theorem lookup_map_replace {α β : Type} [BEq α] [LawfulBEq α] (d : List (α × β))
    (k a : α) (v : β) :
    List.lookup a (d.map (fun p => if p.1 == k then (k, v) else p)) =
      if a == k then (if d.any (fun p => p.1 == k) then some v else Option.none)
      else List.lookup a d := by
  induction d with
  | nil => simp [List.lookup]
  | cons p rest ih =>
    obtain ⟨k₀, v₀⟩ := p
    simp only [List.map_cons, List.any_cons]
    by_cases hk : (k₀ == k) = true
    · rw [if_pos hk]
      have hk₀ : k₀ = k := eq_of_beq hk
      subst hk₀
      by_cases ha : (a == k₀) = true
      · simp [List.lookup, ha, hk]
      · have ha' : (a == k₀) = false := by simpa using ha
        simp [List.lookup, ha', hk, ih]
    · rw [if_neg hk]
      have hk' : (k₀ == k) = false := by simpa using hk
      simp only [hk', Bool.false_or]
      by_cases ha : (a == k₀) = true
      · have ha₀ : a = k₀ := eq_of_beq ha
        subst ha₀
        have hak : (a == k) = false := hk'
        simp [List.lookup, hk', hak]
      · have ha' : (a == k₀) = false := by simpa using ha
        simp [List.lookup, ha', ih]

theorem lookup_dictInsert {α β : Type} [BEq α] [LawfulBEq α] (d : List (α × β))
    (k a : α) (v : β) :
    List.lookup a (dictInsert d k v) = if a == k then some v else List.lookup a d := by
  unfold dictInsert
  cases hany : d.any (fun p => p.1 == k) with
  | true => simp [hany, lookup_map_replace]
  | false =>
    simp only [hany, if_neg Bool.false_ne_true, lookup_append]
    cases ha : (a == k) with
    | true =>
      have : a = k := eq_of_beq ha
      subst this
      rw [lookup_eq_none_of_no_key d a hany]
      simp [List.lookup, ofirst]
    | false =>
      simp [List.lookup, ha, ofirst_none_right]

theorem map_fst_dictInsert {α β : Type} [BEq α] [LawfulBEq α] (d : List (α × β))
    (k : α) (v : β) :
    (dictInsert d k v).map Prod.fst =
      if (d.map Prod.fst).contains k then d.map Prod.fst
      else d.map Prod.fst ++ [k] := by
  have hc : (d.map Prod.fst).contains k = d.any (fun p => p.1 == k) := by
    induction d with
    | nil => rfl
    | cons p rest ih =>
      simp only [List.map_cons, List.contains_cons, List.any_cons, ih]
      rw [beq_symm]
  rw [hc]
  unfold dictInsert
  cases hany : d.any (fun p => p.1 == k) with
  | true =>
    rw [if_pos rfl, if_pos rfl, List.map_map]
    apply List.map_congr_left
    intro p _
    by_cases hp : (p.1 == k) = true
    · have : p.1 = k := eq_of_beq hp
      simp [Function.comp, hp, this]
    · have hp' : (p.1 == k) = false := by simpa using hp
      simp [Function.comp, hp']
  | false =>
    rw [if_neg (by simp), if_neg (by simp)]
    simp

theorem lookup_fst_foldl_enumMapsStep (entries : List (String × Prim))
    (a : List (String × Prim)) (b : List (String × String)) (label : String) :
    List.lookup label (entries.foldl enumMapsStep (a, b)).1 =
      ofirst (List.lookup label ((entries.filter (fun e => e.1 != "")).reverse))
        (List.lookup label a) := by
  induction entries generalizing a b with
  | nil => simp [ofirst]
  | cons e es ih =>
    simp only [List.foldl_cons]
    by_cases he : (e.1 == "") = true
    · rw [show enumMapsStep (a, b) e = (a, b) from by simp [enumMapsStep, he]]
      have hne : (e.1 != "") = false := by simp [bne, he]
      simp only [List.filter_cons, hne, Bool.false_eq_true, if_neg, ih]
      simp
    · have he' : (e.1 == "") = false := by simpa using he
      have hne : (e.1 != "") = true := by simp [bne, he']
      rw [show enumMapsStep (a, b) e =
        (dictInsert a e.1 e.2, dictInsert b (pyStr e.2) e.1) from by simp [enumMapsStep, he']]
      rw [ih]
      simp only [List.filter_cons, hne, if_pos, List.reverse_cons, lookup_append,
        lookup_dictInsert]
      cases hX : List.lookup label ((es.filter (fun e => e.1 != "")).reverse) with
      | some w => simp [ofirst]
      | none =>
        by_cases hl : (label == e.1) = true
        · simp [ofirst, List.lookup, hl]
        · have hl' : (label == e.1) = false := by simpa using hl
          simp [ofirst, List.lookup, hl']

theorem map_fst_foldl_enumMapsStep (entries : List (String × Prim))
    (a : List (String × Prim)) (b : List (String × String)) :
    ((entries.foldl enumMapsStep (a, b)).1).map Prod.fst =
      ((entries.filter (fun e => e.1 != "")).map Prod.fst).foldl
        (fun acc x => if acc.contains x then acc else acc ++ [x]) (a.map Prod.fst) := by
  induction entries generalizing a b with
  | nil => simp
  | cons e es ih =>
    simp only [List.foldl_cons]
    by_cases he : (e.1 == "") = true
    · rw [show enumMapsStep (a, b) e = (a, b) from by simp [enumMapsStep, he]]
      have hne : (e.1 != "") = false := by simp [bne, he]
      simp only [List.filter_cons, hne, Bool.false_eq_true, if_neg, ih]
      simp
    · have he' : (e.1 == "") = false := by simpa using he
      have hne : (e.1 != "") = true := by simp [bne, he']
      rw [show enumMapsStep (a, b) e =
        (dictInsert a e.1 e.2, dictInsert b (pyStr e.2) e.1) from by simp [enumMapsStep, he']]
      rw [ih]
      simp only [List.filter_cons, hne, if_pos, List.map_cons, List.foldl_cons,
        map_fst_dictInsert]

theorem extract_options_eq (mapping : Option PyMapping) :
    extract_options mapping =
      dedupFirst (((enum_entries mapping).filter (fun e => e.1 != "")).map
        (fun p => p.1)) := by
  show ((enum_maps mapping).1).map Prod.fst = _
  unfold enum_maps dedupFirst
  rw [map_fst_foldl_enumMapsStep]
  rfl

theorem loop_eq_find (v : Prim) (rules : List CommandRule) :
    select_command_rule_loop v rules = rules.find? (matches_desired v) := by
  induction rules with
  | nil => rfl
  | cons r rs ih =>
    simp only [select_command_rule_loop, List.find?]
    by_cases h1 : boolLogicMatch v (rule_logic_token r) = true
    · simp [matches_desired, h1]
    · have h1' : boolLogicMatch v (rule_logic_token r) = false := by simpa using h1
      by_cases h2 : (rule_value_token r == pyLower (pyTrim (pyStr v))) = true
      · simp [matches_desired, h1', h2]
      · have h2' : (rule_value_token r == pyLower (pyTrim (pyStr v))) = false := by simpa using h2
        simp [matches_desired, h1', h2', ih]

theorem mapping_command_rules_truthy_iff (mapping : Option PyMapping) :
    mapping_command_rules_truthy mapping = true ↔
      (mapping.bind (fun m => m.command_rules)).getD [] ≠ [] := by
  cases mapping with
  | none => simp [mapping_command_rules_truthy]
  | some m =>
    cases hcr : m.command_rules with
    | none => simp [mapping_command_rules_truthy, hcr]
    | some rules =>
      cases rules with
      | nil => simp [mapping_command_rules_truthy, hcr]
      | cons r rs => simp [mapping_command_rules_truthy, hcr]

theorem filterMap_self_idem {α : Type} (f : α → Option α)
    (hf : ∀ a b, f a = some b → f b = some b) (l : List α) :
    (l.filterMap f).filterMap f = l.filterMap f := by
  induction l with
  | nil => rfl
  | cons a l ih =>
    cases hfa : f a with
    | none => simp [List.filterMap_cons, hfa, ih]
    | some b => simp [List.filterMap_cons, hfa, hf a b hfa, ih]

theorem normalize_one_idem (d d' : RawDescriptor) (h : normalize_one d = some d') :
    normalize_one d' = some d' := by
  simp only [normalize_one] at h
  by_cases hexp : is_exposable_descriptor
      (pyTruthy d.writable || mapping_command_rules_truthy d.mapping)
      d.pool d.chan d.idx d.mapping = true
  · rw [if_neg (by simp [hexp])] at h
    injection h with h
    subst h
    have hw : ((pyTruthy d.writable || mapping_command_rules_truthy d.mapping) ||
        mapping_command_rules_truthy d.mapping) =
        (pyTruthy d.writable || mapping_command_rules_truthy d.mapping) := by
      rw [Bool.or_assoc, Bool.or_self]
    have hpb : ∀ x : Bool, pyTruthy (.pb x) = x := fun _ => rfl
    simp only [normalize_one, hpb, hw, hexp, Bool.not_true, Bool.false_eq_true,
      if_neg, if_false]
  · have hexp' : is_exposable_descriptor
        (pyTruthy d.writable || mapping_command_rules_truthy d.mapping)
        d.pool d.chan d.idx d.mapping = false := by simpa using hexp
    rw [if_pos (by simp [hexp'])] at h
    exact Option.noConfusion h

theorem normalize_one_writable (d d' : RawDescriptor) (h : normalize_one d = some d') :
    d'.writable = .pb (pyTruthy d.writable || mapping_command_rules_truthy d.mapping) := by
  simp only [normalize_one] at h
  by_cases hexp : is_exposable_descriptor
      (pyTruthy d.writable || mapping_command_rules_truthy d.mapping)
      d.pool d.chan d.idx d.mapping = true
  · rw [if_neg (by simp [hexp])] at h
    injection h with h
    subst h
    rfl
  · have hexp' : is_exposable_descriptor
        (pyTruthy d.writable || mapping_command_rules_truthy d.mapping)
        d.pool d.chan d.idx d.mapping = false := by simpa using hexp
    rw [if_pos (by simp [hexp'])] at h
    exact Option.noConfusion h

theorem raw_to_display_of_lookup (m : List (String × Prim)) (label : String) (r : Prim)
    (hlabel : List.lookup label m = some r)
    (hinj : m.Pairwise (fun p q => pyEq p.2 q.2 = false)) :
    enum_raw_to_display r m = .ps label := by
  induction m with
  | nil => simp [List.lookup] at hlabel
  | cons p rest ih =>
    obtain ⟨k, v⟩ := p
    by_cases hk : (label == k) = true
    · simp only [List.lookup, hk] at hlabel
      injection hlabel with hv
      subst hv
      simp [enum_raw_to_display, List.find?, pyEq_refl, eq_of_beq hk]
    · have hk' : (label == k) = false := by simpa using hk
      simp only [List.lookup, hk'] at hlabel
      have hmem : (label, r) ∈ rest := mem_of_lookup_eq_some hlabel
      have hpair := List.pairwise_cons.mp hinj
      have hvr : pyEq v r = false := hpair.1 (label, r) hmem
      have htail := ih hlabel hpair.2
      simpa [enum_raw_to_display, List.find?, hvr] using htail

/-! ## Claims -/

/-- Claim C1 (corrected): for a mapping whose units_source/values yield two
entries with the same trimmed label, `_enum_maps` resolves the duplicate
LAST-occurrence-wins, not first-occurrence-wins: `enum_map[label]` is the
coerced raw value of the last entry carrying that label (the key keeps the
position of the first occurrence, but dict assignment overwrites the
value). -/
theorem enum_map_last_occurrence_wins (mapping : Option PyMapping) (label : String) :
    List.lookup label (enum_maps mapping).1 =
      List.lookup label (((enum_entries mapping).filter (fun e => e.1 != "")).reverse) := by
  unfold enum_maps
  rw [lookup_fst_foldl_enumMapsStep]
  simp [ofirst_none_right, List.lookup]

/-- Claim C1 counterexample: `c1_mapping` yields the entry sequence
("A", 1), ("A", 2); the claim says `enum_map["A"]` is the first entry's
coerced raw 1, but the code produces 2. -/
theorem enum_maps_duplicate_label_counterexample :
    enum_entries (some c1_mapping) = [("A", .pi 1), ("A", .pi 2)] ∧
    (enum_maps (some c1_mapping)).1 = [("A", .pi 2)] := by
  constructor <;> rfl

/-- Claim C2 (corrected): the round trip
`enum_raw_to_display (enum_display_to_raw label m) m = label` holds for a
label of `m` provided the raw values of `m` are pairwise distinct under
Python equality; with duplicated raw values the round trip returns the
first label carrying the raw value. -/
theorem enum_round_trip (m : List (String × Prim)) (label : String) (r : Prim)
    (hlabel : List.lookup label m = some r)
    (hinj : m.Pairwise (fun p q => pyEq p.2 q.2 = false)) :
    enum_display_to_raw (.ps label) m = .ok r ∧ enum_raw_to_display r m = .ps label := by
  constructor
  · simp [enum_display_to_raw, hlabel]
  · exact raw_to_display_of_lookup m label r hlabel hinj

/-- Claim C2 witness: the round trip at label "B" of a mapping with
distinct raw values. -/
theorem enum_round_trip_witness :
    enum_display_to_raw (.ps "B") c2w_map = .ok (.pi 2) ∧
    enum_raw_to_display (.pi 2) c2w_map = .ps "B" :=
  enum_round_trip c2w_map "B" (.pi 2) rfl (by decide)

/-- Claim C2 counterexample: in a mapping where labels "A" and "B" both
carry raw value 1, the round trip at "B" returns "A", not "B". -/
theorem enum_round_trip_counterexample :
    enum_display_to_raw (.ps "B") c2_map = .ok (.pi 1) ∧
    enum_raw_to_display (.pi 1) c2_map = .ps "A" ∧
    Prim.ps "A" ≠ Prim.ps "B" := by
  refine ⟨rfl, rfl, by decide⟩

/-- Claim C3 (corrected): a writable descriptor with a non-empty
`mapping.values` list is classified `select` and its options list is the
ordered, de-duplicated label list — provided the earlier binary_sensor
branch does not fire (chan is not "s", the symbol does not start with
STATUS_, component_type does not contain "status"). -/
theorem infer_platform_select_options (mapping : PyMapping) (symbol : String)
    (chan minimum maximum : Prim) (hda : Bool) (v : Prim) (vs : List Prim)
    (hvals : mapping.values = some (v :: vs))
    (hchan : pyEq chan (.ps "s") = false)
    (hsym : pyStartsWith (pyUpper symbol) "STATUS_" = false)
    (hct : strContains (pyLower (component_type_str (some mapping))) "status" = false) :
    infer_platform true (some mapping) minimum maximum symbol chan hda = "select" ∧
    extract_options (some mapping) =
      dedupFirst (((enum_entries (some mapping)).filter (fun e => e.1 != "")).map
        (fun p => p.1)) := by
  refine ⟨?_, extract_options_eq (some mapping)⟩
  simp [infer_platform, hchan, hsym, hct, hvals]

/-- Claim C3 witness: a writable select descriptor with duplicated raw
values in its values list. -/
theorem infer_platform_select_options_witness :
    infer_platform true (some c3w_mapping) Prim.none Prim.none "MODE" (.ps "v") true =
      "select" ∧
    extract_options (some c3w_mapping) =
      dedupFirst (((enum_entries (some c3w_mapping)).filter (fun e => e.1 != "")).map
        (fun p => p.1)) :=
  infer_platform_select_options c3w_mapping "MODE" (.ps "v") Prim.none Prim.none true
    (.pi 1) [.pi 1, .pi 2] rfl rfl rfl rfl

/-- Claim C3 counterexample: a writable descriptor with non-empty
`mapping.values` but chan "s" is classified binary_sensor, not select. -/
theorem infer_platform_select_counterexample :
    infer_platform true (some c3_mapping) Prim.none Prim.none "X" (.ps "s") true =
      "binary_sensor" ∧
    infer_platform true (some c3_mapping) Prim.none Prim.none "X" (.ps "s") true ≠
      "select" := by
  refine ⟨rfl, by decide⟩

/-- Claim C4 (corrected): descriptors built by
`async_build_bootstrap_payload` store writable true iff
`mapping.command_rules` is non-empty, but `normalize_cached_descriptors`
ORs the cached writable flag in: its output writable flag is true iff the
cached record's writable field was truthy OR `mapping.command_rules` is
non-empty. -/
theorem writable_flag_characterization :
    (∀ mapping : Option PyMapping,
        bootstrap_writable mapping = true ↔
          (mapping.bind (fun m => m.command_rules)).getD [] ≠ []) ∧
    (∀ d d' : RawDescriptor, normalize_one d = some d' →
        (d'.writable = .pb true ↔
          (pyTruthy d.writable = true ∨
            (d.mapping.bind (fun m => m.command_rules)).getD [] ≠ []))) := by
  constructor
  · intro mapping
    exact mapping_command_rules_truthy_iff mapping
  · intro d d' h
    rw [normalize_one_writable d d' h]
    simp [Prim.pb.injEq, Bool.or_eq_true, mapping_command_rules_truthy_iff]

/-- Claim C4 witness: the normalize characterization applied to a record
with a stale writable flag. -/
theorem writable_flag_characterization_witness :
    c4_dW'.writable = .pb true ↔
      (pyTruthy c4_dW.writable = true ∨
        (c4_dW.mapping.bind (fun m => m.command_rules)).getD [] ≠ []) :=
  writable_flag_characterization.2 c4_dW c4_dW' rfl

/-- Claim C4 counterexample: `normalize_cached_descriptors` keeps a cached
descriptor writable although it has no mapping (hence no command_rules),
refuting the claimed iff. -/
theorem normalize_writable_counterexample :
    normalize_cached_descriptors [c4_dW] = [c4_dW'] ∧
    c4_dW'.writable = .pb true ∧
    c4_dW'.mapping = Option.none :=
  ⟨rfl, rfl, rfl⟩

/-- Claim C5 (corrected): `prepare_write` with a scale-0 transform raises
only when the enum-resolved input is numeric and not boolean; for such
inputs it always raises the scale validation error. (For boolean or string
inputs the transform is skipped entirely — see the counterexample.) -/
theorem prepare_write_scale_zero_raises (v : Prim) (context : WriteContext) (r : Prim)
    (q : ℚ) (t : NumericTransform)
    (hres : enum_resolve v context = .ok r)
    (hnum : primNumNotBool r = some q)
    (ht : context.transform = some t)
    (hscale : t.scale = 0) :
    prepare_write v context = .error .scaleZero := by
  simp only [prepare_write, hres, hnum, ht, inverse_transform, hscale]
  simp

/-- Claim C5 witness: a scale-0 transform rejects the numeric input 5. -/
theorem prepare_write_scale_zero_raises_witness :
    prepare_write (.pi 5) ctxC5 = .error .scaleZero :=
  prepare_write_scale_zero_raises (.pi 5) ctxC5 (.pi 5) 5 ⟨0, 0⟩ rfl (by decide) rfl rfl

/-- Claim C5 counterexample: with the same scale-0 transform, the string
input "hello" does not raise: `prepare_write` succeeds and passes the
value through. -/
theorem prepare_write_scale_zero_counterexample :
    prepare_write (.ps "hello") ctxC5 =
      .ok ⟨"sym", .ps "hello", .ps "hello", .parameter_write⟩ ∧
    ctxC5.transform = some ⟨0, 0⟩ :=
  ⟨rfl, rfl⟩

/-- Claim C6 (confirmed): `select_command_route` returns parameter_write
whenever a parameter address exists regardless of command-rule presence,
returns raw_command exactly when no address but a rule exists, and raises
the no-route error when neither exists. -/
theorem select_command_route_characterization :
    (∀ r : Bool, select_command_route true r = .ok .parameter_write) ∧
    (∀ a r : Bool, select_command_route a r = .ok .raw_command ↔ (a = false ∧ r = true)) ∧
    select_command_route false false = .error .noRoute := by
  refine ⟨fun r => rfl, fun a r => ?_, rfl⟩
  cases a <;> cases r <;> simp [select_command_route]

/-- Claim C7 (confirmed): `_select_command_rule` returns the first rule
matching the desired value (by boolean logic intent or by stringified
value token), falling back to the first rule of the list, and to an empty
rule for an empty list. -/
theorem select_command_rule_spec (command_rules : List CommandRule) (desired_value : Prim) :
    select_command_rule command_rules desired_value =
      (command_rules.find? (matches_desired desired_value)).getD
        (command_rules.headD ⟨Option.none, Option.none, Option.none⟩) := by
  unfold select_command_rule
  rw [loop_eq_find]
  cases hf : command_rules.find? (matches_desired desired_value) with
  | some rule => simp
  | none =>
    cases command_rules with
    | nil => simp
    | cons r rs => simp

/-- Claim C8 (confirmed): `prepare_write(20.0, context with scale 0.1,
offset 0, raw bounds [0, 400] and a parameter address)` returns raw_value
200 as an integer and route parameter_write. -/
theorem prepare_write_example_20 :
    prepare_write (.pf 20) ctxC8 = .ok ⟨"sym", .pf 20, .pi 200, .parameter_write⟩ := by
  have hq : ((20 : ℚ) - 0) / ((1 : ℚ) / 10) = 200 := by norm_num
  have hscale : (((1 : ℚ) / 10) == 0) = false := by
    rw [beq_eq_false_iff_ne]
    norm_num
  simp only [prepare_write, enum_resolve, ctxC8, primNumNotBool, inverse_transform,
    hscale, Bool.false_eq_true, if_false, hq, coerce_number, Rat.den_ofNat,
    Rat.num_ofNat, primNumVal, validate_raw_bounds, select_command_route]
  norm_num

/-- Claim C9 (confirmed): `normalize_cached_descriptors` is idempotent:
applying it to its own output reproduces the same descriptor list. -/
theorem normalize_cached_descriptors_idempotent (descriptors_raw : List RawDescriptor) :
    normalize_cached_descriptors (normalize_cached_descriptors descriptors_raw) =
      normalize_cached_descriptors descriptors_raw :=
  filterMap_self_idem normalize_one normalize_one_idem descriptors_raw

/-- Claim C10 (confirmed): when the enum-resolved value is a boolean or a
string, `prepare_write` skips the numeric transform and the bounds check
entirely — even for a scale-0 transform or violated bounds — and the
result is exactly the route-selection outcome with the resolved value
unchanged (so the only possible error is the no-route error). -/
theorem prepare_write_non_numeric_passthrough (v : Prim) (context : WriteContext) (r : Prim)
    (hres : enum_resolve v context = .ok r)
    (hbs : isBoolOrStr r = true) :
    prepare_write v context =
      (select_command_route context.has_parameter_address context.has_command_rule).map
        (fun route => PreparedWrite.mk context.symbol v r route) := by
  have hnum : primNumNotBool r = Option.none := by
    cases r <;> simp_all [isBoolOrStr, primNumNotBool]
  simp only [prepare_write, hres, hnum]
  cases hroute : select_command_route context.has_parameter_address context.has_command_rule with
  | error e => simp [Except.map]
  | ok route => simp [Except.map]

/-- Claim C10 witness: a boolean input passes through a context whose
transform has scale 0 and whose bounds are unsatisfiable. -/
theorem prepare_write_non_numeric_passthrough_witness :
    prepare_write (.pb true) ctxC10 =
      (select_command_route ctxC10.has_parameter_address ctxC10.has_command_rule).map
        (fun route => PreparedWrite.mk ctxC10.symbol (.pb true) (.pb true) route) :=
  prepare_write_non_numeric_passthrough (.pb true) ctxC10 (.pb true) rfl rfl

end HaBragerone
